import Mathlib

/-!
Shallow embedding of the kensetsu-databank crawler (crawler_by_id.py).

The program has three parts:
- the page fetcher crawl_and_extract_data: issue an HTTP GET, on a
  transport error or a non-success status return None; otherwise parse the
  body, take the first table with class san-two, and build a dict from the
  rows that have both a th and a td cell (trimmed texts, later duplicate
  headers overwrite earlier ones), finally storing the source URL under the
  key link when the dict is non-empty;
- the range crawler crawl_kensetsu_databank_range: iterate over the ids of
  an inclusive range, consume the futures in submission order, append each
  truthy result to the in-memory batch (all_data) and each falsy result as
  an error link, flush the batch to the spreadsheet whenever it reaches 32
  records, and flush the remainder at the end;
- the spreadsheet sink append_or_create_excel: when appending to an
  existing file, concatenate the old rows with the new ones and drop
  duplicate rows by the link column keeping the last occurrence; otherwise
  write the new rows alone.

HTTP, BeautifulSoup and pandas are external capabilities: the GET result is
modelled as an abstract outcome (transport error, or a status code together
with the parsed san-two table, a list of rows each carrying the text of its
first th and td cells, when such a table exists), and the spreadsheet file
as an optional list of rows.  Exceptions are modelled explicitly: the body
of the per-future loop is wrapped in a generic handler (so an exception
raised by a mid-run flush is caught and the loop continues), while the final
flush sits outside any handler and propagates, which the driver models as an
Except error.  A ghost counter numbers the flush attempts and a failSet
parameter says which attempts raise, so that I/O failures of the sink can be
reasoned about.  Printing, the commented-out sleeps and the progress line
are pure console effects with no influence on the state and are not
modelled; the progress division is evaluated only inside the loop body.
-/

namespace KensetsuCrawler

/-- A Record is the Python dict built for one page: an ordered list of
key/value pairs with unique keys, in insertion order. -/
abbrev Record := List (String × String)

/-- Python dict assignment data[k] = v: replace the value at the first
occurrence of k keeping its position, or append (k, v) at the end. -/
def dictInsert : Record → String → String → Record
  | [], k, v => [(k, v)]
  | (k1, v1) :: rest, k, v =>
    if k1 = k then (k, v) :: rest
    else (k1, v1) :: dictInsert rest k v

/-- BASE_URL constant of the script. -/
def BASE_URL : String := "https://www.kensetsu-databank.co.jp/osirase/detail.php?id="

/-- LINK_COLUMN constant of the script. -/
def LINK_COLUMN : String := "link"

/-- batch_size local of crawl_kensetsu_databank_range. -/
def batch_size : Nat := 32

/-- Python str.strip(): remove whitespace characters from both ends. -/
def strip (s : String) : String :=
  ⟨((s.data.dropWhile Char.isWhitespace).reverse.dropWhile Char.isWhitespace).reverse⟩

/-- One tr element of the san-two table: the raw (not yet stripped) text
of its first th cell and of its first td cell, when those cells exist. -/
structure Row where
  th : Option String
  td : Option String

/-- Outcome of requests.get(url): either a transport-level error, or a
response carrying a status code and the parsed first table of class
san-two (none when the page has no such table). -/
inductive HttpResult where
  | transportError (cause : String)
  | response (status : Nat) (table : Option (List Row))

/-- response.raise_for_status() raises HTTPError exactly for the client and
server error ranges, 400 <= status < 600. -/
def raisesForStatus (status : Nat) : Bool :=
  decide (400 ≤ status ∧ status < 600)

/-- Body of the row loop: for a row having both a th and a td, insert the
pair of trimmed texts into the dict; other rows are skipped. -/
def extractStep (data : Record) (row : Row) : Record :=
  match row.th, row.td with
  | some t1, some t2 => dictInsert data (strip t1) (strip t2)
  | _, _ => data

/-- The table-extraction loop of crawl_and_extract_data over all rows. -/
def extractData (rows : List Row) : Record :=
  rows.foldl extractStep []

/-- crawl_and_extract_data(url): None on RequestException (transport error
or raise_for_status), otherwise the dict of extracted pairs, with the link
field set to the url when the dict is non-empty. -/
def crawl_and_extract_data (url : String) (http : HttpResult) : Option Record :=
  match http with
  | .transportError _ => none
  | .response status table =>
    if raisesForStatus status then none
    else
      let data : Record :=
        match table with
        | none => []
        | some rows => extractData rows
      if data = [] then some data
      else some (dictInsert data LINK_COLUMN url)

/-- The value of the link column of a row; none models a missing cell
(NaN), which pandas drop_duplicates treats as equal to another NaN. -/
def linkOf (r : Record) : Option String :=
  List.lookup LINK_COLUMN r

/-- combined_df.drop_duplicates(subset=[LINK_COLUMN], keep="last"): keep a
row only when no later row has the same link value, preserving order. -/
def dropDupLast : List Record → List Record
  | [] => []
  | r :: rest =>
    if rest.any (fun r2 => linkOf r2 == linkOf r) then dropDupLast rest
    else r :: dropDupLast rest

/-- append_or_create_excel(data, append_to_existing) acting on the file
contents: merge-and-dedup when appending to an existing file, plain
overwrite otherwise.  Returns the new file contents. -/
def append_or_create_excel (data : List Record) (append_to_existing : Bool)
    (file : Option (List Record)) : List Record :=
  match append_to_existing, file with
  | true, some existing_df => dropDupLast (existing_df ++ data)
  | _, _ => data

/-- State of the orchestration loop: the in-memory batch all_data, the
failure list error_links, plus two ghost observers (the list of batches
passed to the sink, and the number of sink calls attempted so far) and the
spreadsheet file contents. -/
structure CrawlState where
  all_data : List Record
  error_links : List String
  flushes : List (List Record)
  attempts : Nat
  file : Option (List Record)
deriving DecidableEq

/-- Initial loop state over a given starting file. -/
def initialState (file : Option (List Record)) : CrawlState :=
  { all_data := [], error_links := [], flushes := [], attempts := 0, file := file }

/-- First half of one loop iteration: if extracted_data is truthy (non-None
and non-empty) append it to all_data, else append the url to
error_links. -/
def appendPhase (url : String) (extracted : Option Record) (s : CrawlState) : CrawlState :=
  match extracted with
  | some r =>
    if r = [] then { s with error_links := s.error_links ++ [url] }
    else { s with all_data := s.all_data ++ [r] }
  | none => { s with error_links := s.error_links ++ [url] }

/-- Second half of one loop iteration, the threshold check: when all_data
has reached batch_size a sink call is attempted; failSet lists the attempt
numbers whose sink call raises.  A raising mid-run flush is caught by the
generic except of the loop, so the state keeps its all_data (the batch is
not cleared) and only the ghost attempt counter moves. -/
def flushPhase (failSet : List Nat) (append_to_existing : Bool) (s1 : CrawlState) : CrawlState :=
  if batch_size ≤ s1.all_data.length then
    if s1.attempts ∈ failSet then
      { s1 with attempts := s1.attempts + 1 }
    else
      { s1 with
        flushes := s1.flushes ++ [s1.all_data]
        file := some (append_or_create_excel s1.all_data append_to_existing s1.file)
        all_data := []
        attempts := s1.attempts + 1 }
  else s1

/-- One full loop iteration of crawl_kensetsu_databank_range: the append
phase followed by the threshold flush check. -/
def stepCrawl (failSet : List Nat) (append_to_existing : Bool) (url : String)
    (extracted : Option Record) (s : CrawlState) : CrawlState :=
  flushPhase failSet append_to_existing (appendPhase url extracted s)

/-- range(start_id, end_id + 1) as a list of integers. -/
def rangeList (start_id end_id : Int) : List Int :=
  (List.range (end_id + 1 - start_id).toNat).map (fun i => start_id + i)

/-- The per-future loop, folded over a list of ids in submission order
(future i is awaited before future i+1 is inspected); fetch gives the
return value of the task for each id. -/
def crawlFold (failSet : List Nat) (append_to_existing : Bool)
    (fetch : Int → Option Record) (ids : List Int) (s : CrawlState) : CrawlState :=
  ids.foldl (fun t id => stepCrawl failSet append_to_existing (BASE_URL ++ toString id) (fetch id) t) s

/-- The state after the whole loop of crawl_kensetsu_databank_range. -/
def loopState (failSet : List Nat) (fetch : Int → Option Record)
    (start_id end_id : Int) (append_to_existing : Bool)
    (file : Option (List Record)) : CrawlState :=
  crawlFold failSet append_to_existing fetch (rangeList start_id end_id) (initialState file)

/-- crawl_kensetsu_databank_range: run the loop, then flush any remaining
partial batch.  The final flush sits outside the loop handler, so a raising
final sink call propagates, modelled as an error result. -/
def crawl_kensetsu_databank_range (failSet : List Nat) (fetch : Int → Option Record)
    (start_id end_id : Int) (append_to_existing : Bool)
    (file : Option (List Record)) : Except String CrawlState :=
  let s := loopState failSet fetch start_id end_id append_to_existing file
  if s.all_data = [] then .ok s
  else if s.attempts ∈ failSet then .error "IOError"
  else .ok { s with
    flushes := s.flushes ++ [s.all_data]
    file := some (append_or_create_excel s.all_data append_to_existing s.file)
    all_data := []
    attempts := s.attempts + 1 }

/-- Projection of a run result onto its normally-terminated state. -/
def okState (e : Except String CrawlState) : Option CrawlState :=
  match e with
  | .ok s => some s
  | .error _ => none

/-- The record appended to the batch by one loop iteration: the extracted
data when it is truthy, nothing otherwise. -/
def successRecord (extracted : Option Record) : Option Record :=
  match extracted with
  | some r => if r = [] then none else some r
  | none => none

/-- Whether one loop iteration appends to the batch. -/
def isSuccess (extracted : Option Record) : Bool :=
  (successRecord extracted).isSome

/-- Abstract view of one iteration on (batch length, flush sizes), for the
failure-free runs: mirrors the append and the threshold flush. -/
def sizeStep : Nat × List Nat → Bool → Nat × List Nat
  | (n0, fs), b =>
    if batch_size ≤ (if b then n0 + 1 else n0) then (0, fs ++ [if b then n0 + 1 else n0])
    else (if b then n0 + 1 else n0, fs)

theorem lookup_dictInsert_self (d : Record) (k v : String) :
    List.lookup k (dictInsert d k v) = some v := by
  induction d with
  | nil => simp [dictInsert, List.lookup]
  | cons hd tl ih =>
    obtain ⟨k1, v1⟩ := hd
    by_cases h : k1 = k
    · subst h
      simp [dictInsert, List.lookup]
    · have hb : (k == k1) = false := beq_eq_false_iff_ne.mpr (Ne.symm h)
      simp [dictInsert, h, List.lookup, hb, ih]

theorem dictInsert_of_not_mem (d : Record) (k v : String)
    (h : k ∉ d.map Prod.fst) :
    dictInsert d k v = d ++ [(k, v)] := by
  induction d with
  | nil => simp [dictInsert]
  | cons hd tl ih =>
    obtain ⟨k1, v1⟩ := hd
    simp only [List.map_cons, List.mem_cons] at h
    push_neg at h
    simp [dictInsert, Ne.symm h.1, ih h.2]

theorem foldl_extractStep_append (pairs : List (String × String)) (d : Record)
    (hnd : (pairs.map (fun p => strip p.1)).Nodup)
    (hd : ∀ p ∈ pairs, strip p.1 ∉ d.map Prod.fst) :
    (pairs.map (fun p => Row.mk (some p.1) (some p.2))).foldl extractStep d
      = d ++ pairs.map (fun p => (strip p.1, strip p.2)) := by
  induction pairs generalizing d with
  | nil => simp
  | cons p ps ih =>
    simp only [List.map_cons, List.foldl_cons]
    have h1 : extractStep d (Row.mk (some p.1) (some p.2))
        = d ++ [(strip p.1, strip p.2)] := by
      simp only [extractStep]
      exact dictInsert_of_not_mem d _ _ (hd p (by simp))
    rw [List.map_cons, List.nodup_cons] at hnd
    have hd2 : ∀ q ∈ ps, strip q.1 ∉ (d ++ [(strip p.1, strip p.2)]).map Prod.fst := by
      intro q hq hcon
      rw [List.map_append] at hcon
      rcases List.mem_append.mp hcon with hc | hc
      · exact hd q (List.mem_cons_of_mem _ hq) hc
      · have heq : strip q.1 = strip p.1 := by simpa using hc
        exact hnd.1 (heq ▸ List.mem_map_of_mem (fun r => strip r.1) hq)
    rw [h1, ih _ hnd.2 hd2]
    simp


/-- C1: for a URL whose GET succeeds (status below 400) and whose body
holds the san-two table whose rows each carry a header cell and a data
cell, with pairwise distinct stripped headers none of which is the reserved
key link, crawl_and_extract_data returns exactly the stripped key/value
pairs of those rows, in order, followed by the link field set to the input
URL. -/
theorem crawl_extracts_table_pairs (url : String) (status : Nat)
    (pairs : List (String × String))
    (hstatus : status < 400)
    (hne : pairs ≠ [])
    (hnd : (pairs.map (fun p => strip p.1)).Nodup)
    (hlink : LINK_COLUMN ∉ pairs.map (fun p => strip p.1)) :
    crawl_and_extract_data url
        (HttpResult.response status (some (pairs.map (fun p => Row.mk (some p.1) (some p.2)))))
      = some (pairs.map (fun p => (strip p.1, strip p.2)) ++ [(LINK_COLUMN, url)]) := by
  have hrs : raisesForStatus status = false := by
    simp only [raisesForStatus, decide_eq_false_iff_not]
    omega
  have hex : extractData (pairs.map (fun p => Row.mk (some p.1) (some p.2)))
      = pairs.map (fun p => (strip p.1, strip p.2)) := by
    have h := foldl_extractStep_append pairs [] hnd (by simp)
    simpa [extractData] using h
  have hdata : pairs.map (fun p => (strip p.1, strip p.2)) ≠ [] := by
    simpa using hne
  have hkeys : LINK_COLUMN ∉ (pairs.map (fun p => (strip p.1, strip p.2))).map Prod.fst := by
    simpa [List.map_map, Function.comp] using hlink
  simp only [crawl_and_extract_data, hrs, Bool.false_eq_true, if_false, hex, if_neg hdata]
  rw [dictInsert_of_not_mem _ _ _ hkeys]

/-- Witness for C1 at the two-row table of the unit test. -/
theorem crawl_extracts_table_pairs_witness :
    crawl_and_extract_data "https://www.example.com/sample_page"
        (HttpResult.response 200
          (some ([("Key 1", "Value 1"), ("Key 2", "Value 2")].map
            (fun p => Row.mk (some p.1) (some p.2)))))
      = some ([("Key 1", "Value 1"), ("Key 2", "Value 2")].map
            (fun p => (strip p.1, strip p.2)) ++ [(LINK_COLUMN, "https://www.example.com/sample_page")]) :=
  crawl_extracts_table_pairs "https://www.example.com/sample_page" 200
    [("Key 1", "Value 1"), ("Key 2", "Value 2")]
    (by decide) (by decide) (by decide) (by decide)

/-- C7: a transport error during the GET, or a response whose status is in
the raise_for_status range, makes crawl_and_extract_data return None; the
RequestException is caught inside the function and not re-raised. -/
theorem fetch_failure_returns_none (url : String) (http : HttpResult)
    (h : (∃ c, http = HttpResult.transportError c) ∨
         ∃ s t, http = HttpResult.response s t ∧ 400 ≤ s ∧ s < 600) :
    crawl_and_extract_data url http = none := by
  rcases h with ⟨c, rfl⟩ | ⟨s, t, rfl, h1, h2⟩
  · rfl
  · have hrs : raisesForStatus s = true := by
      simp only [raisesForStatus, decide_eq_true_eq]
      exact ⟨h1, h2⟩
    simp [crawl_and_extract_data, hrs]

/-- Witness for C7 at a concrete transport error. -/
theorem fetch_failure_returns_none_witness :
    crawl_and_extract_data "https://www.example.com/error_page"
      (HttpResult.transportError "Network error") = none :=
  fetch_failure_returns_none "https://www.example.com/error_page"
    (HttpResult.transportError "Network error") (Or.inl ⟨"Network error", rfl⟩)

/-- C4, counterexample: a page whose GET succeeds but which has no san-two
table makes crawl_and_extract_data return the empty Record, a non-None
value, and the empty Record has no link field; so not every successfully
returned Record carries a link field. -/
theorem success_without_link_counterexample :
    crawl_and_extract_data "u" (HttpResult.response 200 none) = some [] ∧
    List.lookup LINK_COLUMN ([] : Record) = none :=
  ⟨rfl, rfl⟩

/-- C4, amended: every non-empty Record returned by crawl_and_extract_data
carries a link field whose value equals the input URL (the empty Record,
returned when the table is missing or yields no pairs, has none). -/
theorem nonempty_record_has_link (url : String) (http : HttpResult) (r : Record)
    (hr : crawl_and_extract_data url http = some r) (hne : r ≠ []) :
    List.lookup LINK_COLUMN r = some url := by
  cases http with
  | transportError c => exact absurd hr (by simp [crawl_and_extract_data])
  | response status table =>
    simp only [crawl_and_extract_data] at hr
    by_cases hrs : raisesForStatus status = true
    · simp [hrs] at hr
    · rw [Bool.not_eq_true] at hrs
      rw [hrs] at hr
      simp only [Bool.false_eq_true, if_false] at hr
      generalize hgen : (match table with
        | none => ([] : Record)
        | some rows => extractData rows) = data at hr
      by_cases hd : data = []
      · rw [if_pos hd] at hr
        exact absurd ((Option.some_inj.mp hr).symm.trans hd) hne
      · rw [if_neg hd] at hr
        rw [← Option.some_inj.mp hr]
        exact lookup_dictInsert_self data LINK_COLUMN url

/-- Witness for the amended C4 at a one-row table. -/
theorem nonempty_record_has_link_witness :
    List.lookup LINK_COLUMN [("K", "V"), (LINK_COLUMN, "u")] = some "u" :=
  nonempty_record_has_link "u"
    (HttpResult.response 200 (some [Row.mk (some "K") (some "V")]))
    [("K", "V"), (LINK_COLUMN, "u")] (by decide) (by decide)


theorem dropDupLast_subset (l : List Record) : ∀ x ∈ dropDupLast l, x ∈ l := by
  induction l with
  | nil => simp [dropDupLast]
  | cons r rest ih =>
    intro x hx
    simp only [dropDupLast] at hx
    split at hx
    · exact List.mem_cons_of_mem _ (ih x hx)
    · rcases List.mem_cons.mp hx with rfl | hx2
      · exact List.mem_cons_self _ _
      · exact List.mem_cons_of_mem _ (ih x hx2)

theorem linkOf_nodup_dropDupLast (l : List Record) :
    ((dropDupLast l).map linkOf).Nodup := by
  induction l with
  | nil => simp [dropDupLast]
  | cons r rest ih =>
    simp only [dropDupLast]
    split
    · exact ih
    · rename_i hany
      rw [List.map_cons, List.nodup_cons]
      refine ⟨?_, ih⟩
      intro hmem
      rcases List.mem_map.mp hmem with ⟨x, hx, hlx⟩
      exact hany (List.any_eq_true.mpr
        ⟨x, dropDupLast_subset rest x hx, beq_iff_eq.mpr hlx⟩)

theorem mem_map_linkOf_dropDupLast (l : List Record) (a : Option String) :
    a ∈ (dropDupLast l).map linkOf ↔ a ∈ l.map linkOf := by
  induction l with
  | nil => simp [dropDupLast]
  | cons r rest ih =>
    simp only [dropDupLast]
    split
    · rename_i hany
      rw [ih, List.map_cons]
      constructor
      · exact fun h => List.mem_cons_of_mem _ h
      · intro h
        rcases List.mem_cons.mp h with rfl | h2
        · rcases List.any_eq_true.mp hany with ⟨x, hx, hbx⟩
          exact List.mem_map.mpr ⟨x, hx, beq_iff_eq.mp hbx⟩
        · exact h2
    · simp only [List.map_cons, List.mem_cons]
      rw [ih]

theorem dropDupLast_append_absorb (xs ys : List Record)
    (h : ∀ x ∈ xs, linkOf x ∈ ys.map linkOf) :
    dropDupLast (xs ++ ys) = dropDupLast ys := by
  induction xs with
  | nil => simp
  | cons x xs ih =>
    rw [List.cons_append]
    simp only [dropDupLast]
    rcases List.mem_map.mp (h x (List.mem_cons_self _ _)) with ⟨y, hy, hly⟩
    have hany : ((xs ++ ys).any (fun r2 => linkOf r2 == linkOf x)) = true :=
      List.any_eq_true.mpr ⟨y, List.mem_append_right _ hy, beq_iff_eq.mpr hly⟩
    rw [if_pos hany]
    exact ih (fun z hz => h z (List.mem_cons_of_mem _ hz))

/-- C2: writing a batch whose records all carry a link field, twice, with
append=true and starting from no file, leaves exactly the keep-last
deduplication of the batch (the rows of the second write), with exactly one
row per distinct link value of the batch; and any merge pass over an
existing file leaves no two rows sharing a link value. -/
theorem persist_twice_dedups (batch : List Record)
    (hlinks : ∀ r ∈ batch, (linkOf r).isSome = true) :
    (append_or_create_excel batch true (some (append_or_create_excel batch true none))
        = dropDupLast batch) ∧
    ((append_or_create_excel batch true
        (some (append_or_create_excel batch true none))).map linkOf).Nodup ∧
    (∀ a, a ∈ (append_or_create_excel batch true
        (some (append_or_create_excel batch true none))).map linkOf
        ↔ a ∈ batch.map linkOf) ∧
    ∀ existing_df new_rows,
      ((append_or_create_excel new_rows true (some existing_df)).map linkOf).Nodup := by
  have habs : dropDupLast (batch ++ batch) = dropDupLast batch :=
    dropDupLast_append_absorb batch batch (fun x hx => List.mem_map_of_mem _ hx)
  have hfst : append_or_create_excel batch true
      (some (append_or_create_excel batch true none)) = dropDupLast batch := by
    show dropDupLast (batch ++ batch) = dropDupLast batch
    exact habs
  refine ⟨hfst, ?_, ?_, ?_⟩
  · rw [hfst]
    exact linkOf_nodup_dropDupLast batch
  · intro a
    rw [hfst]
    exact mem_map_linkOf_dropDupLast batch a
  · intro existing_df new_rows
    exact linkOf_nodup_dropDupLast (existing_df ++ new_rows)

/-- Witness for C2 at a three-record batch with a duplicated link. -/
theorem persist_twice_dedups_witness :
    append_or_create_excel
        [[(LINK_COLUMN, "a")], [(LINK_COLUMN, "a")], [(LINK_COLUMN, "b")]] true
        (some (append_or_create_excel
          [[(LINK_COLUMN, "a")], [(LINK_COLUMN, "a")], [(LINK_COLUMN, "b")]] true none))
      = dropDupLast [[(LINK_COLUMN, "a")], [(LINK_COLUMN, "a")], [(LINK_COLUMN, "b")]] :=
  (persist_twice_dedups
    [[(LINK_COLUMN, "a")], [(LINK_COLUMN, "a")], [(LINK_COLUMN, "b")]] (by decide)).1


theorem appendPhase_attempts (url : String) (o : Option Record) (s : CrawlState) :
    (appendPhase url o s).attempts = s.attempts := by
  cases o with
  | none => rfl
  | some r => by_cases hr : r = [] <;> simp [appendPhase, hr]

theorem appendPhase_flushes (url : String) (o : Option Record) (s : CrawlState) :
    (appendPhase url o s).flushes = s.flushes := by
  cases o with
  | none => rfl
  | some r => by_cases hr : r = [] <;> simp [appendPhase, hr]

theorem appendPhase_file (url : String) (o : Option Record) (s : CrawlState) :
    (appendPhase url o s).file = s.file := by
  cases o with
  | none => rfl
  | some r => by_cases hr : r = [] <;> simp [appendPhase, hr]

theorem appendPhase_trace (url : String) (o : Option Record) (s : CrawlState) :
    (appendPhase url o s).flushes.flatten ++ (appendPhase url o s).all_data
      = s.flushes.flatten ++ (s.all_data ++ (successRecord o).toList) := by
  cases o with
  | none => simp [appendPhase, successRecord]
  | some r => by_cases hr : r = [] <;> simp [appendPhase, successRecord, hr]

theorem flushPhase_trace (failSet : List Nat) (app : Bool) (s1 : CrawlState) :
    (flushPhase failSet app s1).flushes.flatten ++ (flushPhase failSet app s1).all_data
      = s1.flushes.flatten ++ s1.all_data := by
  simp only [flushPhase]
  split
  · split <;> simp [List.flatten_append]
  · rfl

theorem stepCrawl_trace (failSet : List Nat) (app : Bool) (url : String)
    (o : Option Record) (s : CrawlState) :
    (stepCrawl failSet app url o s).flushes.flatten ++ (stepCrawl failSet app url o s).all_data
      = s.flushes.flatten ++ (s.all_data ++ (successRecord o).toList) := by
  simp only [stepCrawl]
  rw [flushPhase_trace, appendPhase_trace]

theorem crawlFold_cons (failSet : List Nat) (app : Bool) (fetch : Int → Option Record)
    (id : Int) (ids : List Int) (s : CrawlState) :
    crawlFold failSet app fetch (id :: ids) s
      = crawlFold failSet app fetch ids
          (stepCrawl failSet app (BASE_URL ++ toString id) (fetch id) s) := rfl

theorem crawlFold_trace (failSet : List Nat) (app : Bool) (fetch : Int → Option Record)
    (ids : List Int) (s : CrawlState) :
    (crawlFold failSet app fetch ids s).flushes.flatten
        ++ (crawlFold failSet app fetch ids s).all_data
      = s.flushes.flatten ++ s.all_data
        ++ ids.filterMap (fun id => successRecord (fetch id)) := by
  induction ids generalizing s with
  | nil => simp [crawlFold]
  | cons id ids ih =>
    rw [crawlFold_cons, ih, stepCrawl_trace]
    cases h : successRecord (fetch id) <;>
      simp [List.filterMap_cons, h, List.append_assoc]

theorem run_flushes_flatten (failSet : List Nat) (app : Bool) (fetch : Int → Option Record)
    (start_id end_id : Int) (file : Option (List Record)) (st : CrawlState)
    (h : crawl_kensetsu_databank_range failSet fetch start_id end_id app file = Except.ok st) :
    st.flushes.flatten = (rangeList start_id end_id).filterMap (fun id => successRecord (fetch id))
      ∧ st.all_data = [] := by
  have hinv : (loopState failSet fetch start_id end_id app file).flushes.flatten
      ++ (loopState failSet fetch start_id end_id app file).all_data
      = (rangeList start_id end_id).filterMap (fun id => successRecord (fetch id)) := by
    have h2 := crawlFold_trace failSet app fetch (rangeList start_id end_id) (initialState file)
    simpa [loopState, initialState] using h2
  simp only [crawl_kensetsu_databank_range] at h
  split at h
  · rename_i hempty
    cases h
    rw [hempty, List.append_nil] at hinv
    exact ⟨hinv, hempty⟩
  · split at h
    · cases h
    · cases h
      refine ⟨?_, rfl⟩
      rw [← hinv]
      simp [List.flatten_append]


/-- C3: the loop consumes futures in submission order (the fold runs over
the ids in ascending order, and the value a future hands back is fixed at
submission, independent of when the task completed), so a run with no
sink failures terminates normally and the concatenation of the batches
passed to the sink — the persisted row stream before deduplication — is
exactly the sequence of non-empty fetched Records in ascending identifier
order. -/
theorem rows_in_submission_order (fetch : Int → Option Record)
    (start_id end_id : Int) (app : Bool) (file : Option (List Record)) :
    (okState (crawl_kensetsu_databank_range [] fetch start_id end_id app file)).map
        (fun st => (st.flushes.flatten, st.all_data))
      = some ((rangeList start_id end_id).filterMap (fun id => successRecord (fetch id)), []) := by
  cases hst : crawl_kensetsu_databank_range [] fetch start_id end_id app file with
  | error e =>
    exfalso
    simp only [crawl_kensetsu_databank_range] at hst
    split at hst
    · cases hst
    · split at hst
      · rename_i hmem
        exact List.not_mem_nil _ hmem
      · cases hst
  | ok st =>
    obtain ⟨h1, h2⟩ := run_flushes_flatten [] app fetch start_id end_id file st hst
    simp [okState, h1, h2]

/-- C10: when the sink call of a mid-run threshold flush raises, the
exception is caught by the generic handler of the loop and the state keeps
the batch exactly as the append phase left it: nothing is cleared, nothing
is recorded as flushed, the file is untouched.  Consequently every normally
terminated run, even one whose mid-run flush attempts failed, has handed
the sink exactly the non-empty fetched Records in ascending identifier
order: a failed flush loses no accumulated Records, they ride along to the
next attempt. -/
theorem failed_flush_retains_batch (failSet : List Nat) (app : Bool) (url : String)
    (o : Option Record) (s : CrawlState)
    (hsize : batch_size ≤ (appendPhase url o s).all_data.length)
    (hfail : s.attempts ∈ failSet) :
    ((stepCrawl failSet app url o s).all_data = (appendPhase url o s).all_data ∧
     (stepCrawl failSet app url o s).flushes = s.flushes ∧
     (stepCrawl failSet app url o s).file = s.file) ∧
    ∀ fetch start_id end_id file st,
      crawl_kensetsu_databank_range failSet fetch start_id end_id app file = Except.ok st →
      st.flushes.flatten
        = (rangeList start_id end_id).filterMap (fun id => successRecord (fetch id)) := by
  constructor
  · have hfail2 : (appendPhase url o s).attempts ∈ failSet := by
      rw [appendPhase_attempts]
      exact hfail
    have hstep : stepCrawl failSet app url o s
        = { appendPhase url o s with attempts := (appendPhase url o s).attempts + 1 } := by
      simp only [stepCrawl, flushPhase, if_pos hsize, if_pos hfail2]
    rw [hstep]
    exact ⟨rfl, appendPhase_flushes url o s, appendPhase_file url o s⟩
  · intro fetch start_id end_id file st hst
    exact (run_flushes_flatten failSet app fetch start_id end_id file st hst).1

/-- Witness for C10: a batch of 31 records plus a fresh one reaches the
threshold, attempt 0 is set to fail, and the step keeps the 32 records. -/
theorem failed_flush_retains_batch_witness :
    (stepCrawl [0] true "u" (some [("a", "b")])
        ⟨List.replicate 31 [("x", "y")], [], [], 0, none⟩).all_data
      = (appendPhase "u" (some [("a", "b")])
        ⟨List.replicate 31 [("x", "y")], [], [], 0, none⟩).all_data :=
  ((failed_flush_retains_batch [0] true "u" (some [("a", "b")])
    ⟨List.replicate 31 [("x", "y")], [], [], 0, none⟩ (by decide) (by decide)).1).1


theorem stepCrawl_sizes (app : Bool) (url : String) (o : Option Record) (s : CrawlState) :
    ((stepCrawl [] app url o s).all_data.length,
     (stepCrawl [] app url o s).flushes.map List.length)
      = sizeStep (s.all_data.length, s.flushes.map List.length) (isSuccess o) := by
  have happ : (appendPhase url o s).all_data.length
      = if isSuccess o then s.all_data.length + 1 else s.all_data.length := by
    cases o with
    | none => simp [appendPhase, isSuccess, successRecord]
    | some r => by_cases hr : r = [] <;> simp [appendPhase, isSuccess, successRecord, hr]
  simp only [stepCrawl, flushPhase, sizeStep, ← happ]
  by_cases hsize : batch_size ≤ (appendPhase url o s).all_data.length
  · rw [if_pos hsize, if_pos hsize, if_neg (List.not_mem_nil _)]
    simp [appendPhase_flushes]
  · rw [if_neg hsize, if_neg hsize]
    simp [appendPhase_flushes]

theorem crawlFold_sizes (app : Bool) (fetch : Int → Option Record)
    (ids : List Int) (s : CrawlState) :
    ((crawlFold [] app fetch ids s).all_data.length,
     (crawlFold [] app fetch ids s).flushes.map List.length)
      = (ids.map (fun id => isSuccess (fetch id))).foldl sizeStep
          (s.all_data.length, s.flushes.map List.length) := by
  induction ids generalizing s with
  | nil => rfl
  | cons id ids ih =>
    rw [crawlFold_cons, ih, List.map_cons, List.foldl_cons, stepCrawl_sizes]

set_option maxRecDepth 10000 in
/-- C5: over the 65 identifiers 1..65, when every fetch hands back a
non-empty Record, the run terminates normally having passed exactly three
batches to the sink, of 32, 32 and 1 records (the loop flushes and clears
the batch at each threshold crossing, the remainder goes out in the final
partial flush), ending with an empty in-memory batch. -/
theorem flush_sizes_65 (fetch : Int → Option Record) (app : Bool)
    (file : Option (List Record))
    (hsucc : ∀ id ∈ rangeList 1 65, isSuccess (fetch id) = true) :
    (okState (crawl_kensetsu_databank_range [] fetch 1 65 app file)).map
        (fun st => (st.flushes.map List.length, st.all_data))
      = some ([32, 32, 1], []) := by
  have hlen : (rangeList 1 65).length = 65 := by decide
  have hpat : (rangeList 1 65).map (fun id => isSuccess (fetch id))
      = List.replicate 65 true := by
    apply List.eq_replicate_iff.mpr
    refine ⟨by simpa using hlen, ?_⟩
    intro b hb
    rcases List.mem_map.mp hb with ⟨id, hid, rfl⟩
    exact hsucc id hid
  have hsz := crawlFold_sizes app fetch (rangeList 1 65) (initialState file)
  rw [hpat] at hsz
  simp only [initialState, List.length_nil, List.map_nil] at hsz
  have hfold : (List.replicate 65 true).foldl sizeStep (0, []) = (1, [32, 32]) := by decide
  rw [hfold] at hsz
  have h1 : (crawlFold [] app fetch (rangeList 1 65) (initialState file)).all_data.length = 1 :=
    congrArg Prod.fst hsz
  have h2 : (crawlFold [] app fetch (rangeList 1 65) (initialState file)).flushes.map List.length
      = [32, 32] := congrArg Prod.snd hsz
  have hne : (crawlFold [] app fetch (rangeList 1 65) (initialState file)).all_data ≠ [] := by
    intro hcon
    rw [hcon] at h1
    simp at h1
  simp only [crawl_kensetsu_databank_range, loopState]
  rw [if_neg hne, if_neg (List.not_mem_nil _)]
  simp [okState, List.map_append, h1, h2]

/-- Witness for C5 with a fetch oracle returning one fixed non-empty
Record everywhere. -/
theorem flush_sizes_65_witness :
    (okState (crawl_kensetsu_databank_range []
        (fun _ => some [("k", "v")]) 1 65 true none)).map
        (fun st => (st.flushes.map List.length, st.all_data))
      = some ([32, 32, 1], []) :=
  flush_sizes_65 (fun _ => some [("k", "v")]) true none (by decide)


set_option maxRecDepth 10000 in
/-- C6, counterexample: make the first sink call raise (failSet = [0]) and
crawl ids 1..33 with every fetch succeeding.  The threshold flush at the
32nd record raises, is caught by the generic handler of the loop, and the
run still terminates normally: the result is Except.ok, with attempts = 2
(attempt 0, which is in failSet and so raised, then attempt 1) and one
successful flush carrying all 33 records.  So an I/O failure while writing
the output file during a flush does not, in general, propagate out of
crawl_kensetsu_databank_range. -/
theorem midrun_flush_failure_not_fatal :
    (okState (crawl_kensetsu_databank_range [0]
        (fun _ => some [("k", "v")]) 1 33 true none)).map
        (fun st => (st.attempts, st.flushes.map List.length, st.all_data.length))
      = some (2, [33], 0) := by decide

/-- C6, amended: an I/O failure in the final partial-batch flush (the sink
call after the loop, outside any handler) propagates out of
crawl_kensetsu_databank_range and is fatal to the run, while an I/O failure
in a mid-run threshold flush is caught by the generic per-item handler of
the loop, and the run terminates normally whenever the final flush is not
itself the failing one (or is not needed). -/
theorem only_final_flush_failure_fatal (failSet : List Nat) (fetch : Int → Option Record)
    (start_id end_id : Int) (app : Bool) (file : Option (List Record)) :
    ((loopState failSet fetch start_id end_id app file).all_data ≠ [] →
     (loopState failSet fetch start_id end_id app file).attempts ∈ failSet →
     crawl_kensetsu_databank_range failSet fetch start_id end_id app file
       = Except.error "IOError") ∧
    ((loopState failSet fetch start_id end_id app file).all_data = [] ∨
     (loopState failSet fetch start_id end_id app file).attempts ∉ failSet →
     (okState (crawl_kensetsu_databank_range failSet fetch start_id end_id app file)).isSome
       = true) := by
  constructor
  · intro hne hmem
    simp only [crawl_kensetsu_databank_range]
    rw [if_neg hne, if_pos hmem]
  · intro h
    simp only [crawl_kensetsu_databank_range]
    rcases h with hempty | hnmem
    · rw [if_pos hempty]
      rfl
    · by_cases hempty : (loopState failSet fetch start_id end_id app file).all_data = []
      · rw [if_pos hempty]
        rfl
      · rw [if_neg hempty, if_neg hnmem]
        rfl

/-- Witness for the amended C6: one id, one success, and the single (final)
flush attempt set to fail: the failure propagates as an error result. -/
theorem only_final_flush_failure_fatal_witness :
    crawl_kensetsu_databank_range [0] (fun _ => some [("k", "v")]) 1 1 true none
      = Except.error "IOError" :=
  (only_final_flush_failure_fatal [0] (fun _ => some [("k", "v")]) 1 1 true none).1
    (by decide) (by decide)

/-- C8: a successful fetch that yields an empty Record is handled exactly
like a failed fetch: the loop step is the same state transformation — the
URL goes to the failure list and nothing joins the batch — and when the
batch is below the threshold the step changes nothing else. -/
theorem empty_record_like_failure (failSet : List Nat) (app : Bool) (url : String)
    (s : CrawlState) :
    stepCrawl failSet app url (some []) s = stepCrawl failSet app url none s ∧
    (s.all_data.length < batch_size →
      stepCrawl failSet app url (some []) s
        = { s with error_links := s.error_links ++ [url] }) := by
  constructor
  · rfl
  · intro hlt
    have h1 : appendPhase url (some ([] : Record)) s
        = { s with error_links := s.error_links ++ [url] } := rfl
    show flushPhase failSet app (appendPhase url (some []) s) = _
    rw [h1]
    simp only [flushPhase]
    rw [if_neg]
    exact not_le.mpr hlt

/-- Witness for C8 starting from the initial state. -/
theorem empty_record_like_failure_witness :
    stepCrawl [] true "u" (some []) (initialState none)
      = { initialState none with
          error_links := (initialState none).error_links ++ ["u"] } :=
  (empty_record_like_failure [] true "u" (initialState none)).2 (by decide)

/-- C9: for an empty range (end identifier below start identifier) the loop
body never runs: no fetch result is consumed (the run does not depend on
the fetch oracle at all), no sink call happens, and the run terminates
normally with the initial state — in particular the progress division,
which sits inside the loop body, is never evaluated. -/
theorem empty_range_no_work (failSet : List Nat) (fetch fetch2 : Int → Option Record)
    (start_id end_id : Int) (app : Bool) (file : Option (List Record))
    (h : end_id < start_id) :
    rangeList start_id end_id = [] ∧
    crawl_kensetsu_databank_range failSet fetch start_id end_id app file
      = Except.ok (initialState file) ∧
    crawl_kensetsu_databank_range failSet fetch start_id end_id app file
      = crawl_kensetsu_databank_range failSet fetch2 start_id end_id app file := by
  have hr : rangeList start_id end_id = [] := by
    simp only [rangeList]
    have h0 : (end_id + 1 - start_id).toNat = 0 := by omega
    rw [h0]
    rfl
  have hrun : ∀ f : Int → Option Record,
      crawl_kensetsu_databank_range failSet f start_id end_id app file
        = Except.ok (initialState file) := by
    intro f
    simp only [crawl_kensetsu_databank_range, loopState, hr]
    rfl
  exact ⟨hr, hrun fetch, (hrun fetch).trans (hrun fetch2).symm⟩

/-- Witness for C9 at the reversed range 5..3. -/
theorem empty_range_no_work_witness :
    crawl_kensetsu_databank_range [] (fun _ => none) 5 3 true none
      = Except.ok (initialState none) :=
  (empty_range_no_work [] (fun _ => none) (fun _ => some [("a", "b")]) 5 3 true none
    (by decide)).2.1

end KensetsuCrawler
